import Mathlib

/-!
Verification of the cable-parameter extraction pipeline (`src/app.py`).
Text is modelled as `List Char`; Python floats are modelled as exact
rationals; regex searches are modelled by explicit leftmost-match
scanners equivalent to the specific patterns used in the source.
-/

-- Rational arithmetic must reduce during `decide`-based evaluation of the
-- model on concrete inputs.
attribute [local semireducible] Rat.add Rat.mul Rat.inv Rat.sub

abbrev Chars := List Char

/-- Whitespace characters recognised by Python's `str.strip` / regex `\s`
(the ASCII and common Unicode ones that can occur in this pipeline). -/
def isPyWhite (c : Char) : Bool :=
  c = ' ' || c = '\t' || c = '\n' || c = '\r' || c = '\x0b' || c = '\x0c' ||
  c = '\x1c' || c = '\x1d' || c = '\x1e' || c = '\x85' || c = '\xa0' ||
  c = '\u2028' || c = '\u2029'

/-- Line-break characters recognised by Python's `str.splitlines`. -/
def isLineBreak (c : Char) : Bool :=
  c = '\n' || c = '\r' || c = '\x0b' || c = '\x0c' ||
  c = '\x1c' || c = '\x1d' || c = '\x1e' || c = '\x85' ||
  c = '\u2028' || c = '\u2029'

/-- Helper for `splitlines`: `cur` is the reversed current line. -/
def splitlinesAux : Chars → Chars → List Chars
  | cur, [] => if cur.isEmpty then [] else [cur.reverse]
  | cur, '\r' :: '\n' :: rest => cur.reverse :: splitlinesAux [] rest
  | cur, c :: rest =>
    if isLineBreak c then cur.reverse :: splitlinesAux [] rest
    else splitlinesAux (c :: cur) rest

/-- Python `str.splitlines()`. -/
def splitlines (s : Chars) : List Chars := splitlinesAux [] s

/-- Python `str.strip()`. -/
def pyStrip (s : Chars) : Chars :=
  ((s.dropWhile isPyWhite).reverse.dropWhile isPyWhite).reverse

/-- Python `str.lower()` (ASCII case folding suffices here). -/
def lowerCs (s : Chars) : Chars := s.map Char.toLower

/-- Python `" ".join(lines)`. -/
def joinSpace (ls : List Chars) : Chars := List.intercalate [' '] ls

/-- Python substring containment: `pat in s`. -/
def hasSub (pat : Chars) : Chars → Bool
  | [] => pat.isEmpty
  | c :: rest => pat.isPrefixOf (c :: rest) || hasSub pat rest

/-- `get_first_nonempty_lines` from `src/app.py`: first `n` stripped
non-empty lines of the text. -/
def get_first_nonempty_lines (text : Chars) (n : Nat) : List Chars :=
  ((((splitlines text).map pyStrip).filter (fun l => !l.isEmpty)).take n)

/-! ## Numeric token parsing -/

/-- Value of a decimal digit character. -/
def digitVal (c : Char) : Nat := c.toNat - '0'.toNat

/-- Natural number denoted by a digit run. -/
def natOfDigits (ds : Chars) : Nat :=
  ds.foldl (fun a c => 10 * a + digitVal c) 0

/-- Rational denoted by integer part `ip` and fractional part `fp`
(mirrors Python `float("ip.fp")`, modelled exactly). -/
def ratOfParts (ip fp : Chars) : ℚ :=
  (natOfDigits ip : ℚ) + (natOfDigits fp : ℚ) / ((10 : ℚ) ^ fp.length)

/-- One step of `re.finditer(r'(\d+(?:[.,]\d+)?)', s)`: all numeric tokens,
left to right, non-overlapping, greedy.  `ac` says whether `,` is accepted
as a decimal separator besides `.` (fuel = remaining length bound). -/
def numTokensAux (ac : Bool) : Chars → Nat → List (Chars × Chars)
  | _, 0 => []
  | [], _ => []
  | c :: rest, fuel + 1 =>
    if c.isDigit then
      let ip := (c :: rest).takeWhile Char.isDigit
      let r1 := (c :: rest).dropWhile Char.isDigit
      match r1 with
      | sep :: d :: r2 =>
        if (sep = '.' || (ac && sep = ',')) && d.isDigit then
          let fp := (d :: r2).takeWhile Char.isDigit
          let r3 := (d :: r2).dropWhile Char.isDigit
          (ip, fp) :: numTokensAux ac r3 fuel
        else
          (ip, []) :: numTokensAux ac r1 fuel
      | _ => (ip, []) :: numTokensAux ac r1 fuel
    else numTokensAux ac rest fuel

/-- All numeric tokens of `s` as rationals (Python
`[float(m.group(1).replace(",", ".")) for m in re.finditer(...)]`). -/
def numTokens (ac : Bool) (s : Chars) : List ℚ :=
  (numTokensAux ac s s.length).map fun p => ratOfParts p.1 p.2

/-! ## Specific pattern scanners (leftmost-match models of the source regexes) -/

/-- Word character for regex `\b` (`[a-zA-Z0-9_]`). -/
def isWordChar (c : Char) : Bool := c.isAlpha || c.isDigit || c = '_'

/-- Match `(\d+(?:\.\d+)?)\s*k\s*?v` at the start of `s` (already
lowercased); returns the captured number parts. -/
def kvAt (s : Chars) : Option (Chars × Chars) :=
  let ip := s.takeWhile Char.isDigit
  if ip.isEmpty then none else
  let r1 := s.dropWhile Char.isDigit
  let pr :=
    match r1 with
    | '.' :: d :: r2 =>
      if d.isDigit then ((d :: r2).takeWhile Char.isDigit, (d :: r2).dropWhile Char.isDigit)
      else (([] : Chars), r1)
    | _ => (([] : Chars), r1)
  match pr.2.dropWhile isPyWhite with
  | 'k' :: r4 =>
    match r4.dropWhile isPyWhite with
    | 'v' :: _ => some (ip, pr.1)
    | _ => none
  | _ => none

/-- `re.search(r'(\d+(?:\.\d+)?)\s*k\s*?v', s)`: leftmost match, parsed. -/
def searchKv : Chars → Option ℚ
  | [] => none
  | c :: rest =>
    match kvAt (c :: rest) with
    | some p => some (ratOfParts p.1 p.2)
    | none => searchKv rest

/-- `[a-z]` test for the outer-sheath capture group. -/
def isLowerAlpha (c : Char) : Bool := 'a' ≤ c && c ≤ 'z'

/-- Match `([a-z]+)\s+outer\s+sheath` at the start of `s` (boundary before
the word is checked by the caller); returns the captured word. -/
def outerAt (s : Chars) : Option Chars :=
  let w := s.takeWhile isLowerAlpha
  if w.isEmpty then none else
  let r1 := s.dropWhile isLowerAlpha
  if (r1.takeWhile isPyWhite).isEmpty then none else
  let r2 := r1.dropWhile isPyWhite
  if "outer".toList.isPrefixOf r2 then
    let r3 := r2.drop 5
    if (r3.takeWhile isPyWhite).isEmpty then none else
    let r4 := r3.dropWhile isPyWhite
    if "sheath".toList.isPrefixOf r4 then some w else none
  else none

/-- `re.search(r'(\b[a-z]+)\s+outer\s+sheath', s)`: leftmost match with the
word boundary tracked via the previous character. -/
def outerSearchAux : Option Char → Chars → Option Chars
  | _, [] => none
  | prev, c :: rest =>
    match (if prev.all (fun p => !isWordChar p) then outerAt (c :: rest) else none) with
    | some w => some w
    | none => outerSearchAux (some c) rest

/-- Zero or more non-comma, non-newline characters followed by `word`
(the `[^,\n]*word` tail of the conductor/sheath regexes). -/
def scanToWord (word : Chars) : Chars → Bool
  | [] => word.isEmpty
  | c :: rest =>
    word.isPrefixOf (c :: rest) ||
    (!(c = ',' || c = '\n') && scanToWord word rest)

/-- Match `\b(mat1|mat2|...)\b[^,\n]*word` at the start of `s`
(boundary before is checked by the caller). -/
def matThenWordAt (mats : List Chars) (word : Chars) (s : Chars) : Bool :=
  mats.any fun mat =>
    mat.isPrefixOf s &&
    ((s.drop mat.length).head?.all (fun c => !isWordChar c)) &&
    scanToWord word (s.drop mat.length)

/-- `re.search(r'\b(mats)\b[^,\n]*word', s)` as a Boolean. -/
def searchMatWord (mats : List Chars) (word : Chars) : Option Char → Chars → Bool
  | _, [] => false
  | prev, c :: rest =>
    (prev.all (fun p => !isWordChar p) && matThenWordAt mats word (c :: rest)) ||
    searchMatWord mats word (some c) rest

/-- Character class `[0-9/\s\.]` of the rated-voltage regex. -/
def isRvClass (c : Char) : Bool := c.isDigit || c = '/' || isPyWhite c || c = '.'

/-- Match `RATED\s+VOLTAGE\s*:\s*([0-9/\s\.]+)kV` at the start of `s`
(`s` lowercased; the pattern runs with IGNORECASE).  Returns the captured
group (leading whitespace that the regex could attribute to `\s*` is kept:
it carries no numeric tokens). -/
def ratedAt (s : Chars) : Option Chars :=
  if "rated".toList.isPrefixOf s then
    let r1 := s.drop 5
    if (r1.takeWhile isPyWhite).isEmpty then none else
    let r2 := r1.dropWhile isPyWhite
    if "voltage".toList.isPrefixOf r2 then
      match (r2.drop 7).dropWhile isPyWhite with
      | ':' :: r4 =>
        let grp := r4.takeWhile isRvClass
        if grp.isEmpty then none
        else if "kv".toList.isPrefixOf (r4.dropWhile isRvClass) then some grp
        else none
      | _ => none
    else none
  else none

/-- `re.search` of the rated-voltage pattern: leftmost match. -/
def ratedSearch : Chars → Option Chars
  | [] => none
  | c :: rest =>
    match ratedAt (c :: rest) with
    | some g => some g
    | none => ratedSearch rest

/-- The unit alternatives `(s|sec|secs|second|seconds)` of the duration regex. -/
def timeUnits : List Chars :=
  ["s".toList, "sec".toList, "secs".toList, "second".toList, "seconds".toList]

/-- Match `(\d+(?:[.,]\d+)?)\s*(s|sec|secs|second|seconds)\b` at the start
of `s`, case-insensitively; returns the parsed number. -/
def timeAt (s : Chars) : Option ℚ :=
  let ip := s.takeWhile Char.isDigit
  if ip.isEmpty then none else
  let r1 := s.dropWhile Char.isDigit
  let pr :=
    match r1 with
    | sep :: d :: r2 =>
      if (sep = '.' || sep = ',') && d.isDigit then
        ((d :: r2).takeWhile Char.isDigit, (d :: r2).dropWhile Char.isDigit)
      else (([] : Chars), r1)
    | _ => (([] : Chars), r1)
  let low := lowerCs (pr.2.dropWhile isPyWhite)
  if timeUnits.any (fun u =>
      u.isPrefixOf low && ((low.drop u.length).head?.all (fun c => !isWordChar c)))
  then some (ratOfParts ip pr.1) else none

/-- `re.search` of the duration pattern: leftmost match. -/
def timeSearch : Chars → Option ℚ
  | [] => none
  | c :: rest =>
    match timeAt (c :: rest) with
    | some v => some v
    | none => timeSearch rest

/-! ## Field detectors (direct translations from `src/app.py`) -/

/-- The `" ".join(lines[:n]).lower() if lines else ""` header expression
shared by the header detectors. -/
def headerJoin (n : Nat) (lines : List Chars) : Chars :=
  if lines.isEmpty then [] else lowerCs (joinSpace (lines.take n))

/-- `extract_header_voltage_and_material` from `src/app.py`. -/
def extract_header_voltage_and_material (lines : List Chars) :
    Option ℚ × Option Chars :=
  let header := headerJoin 2 lines
  let voltage_kv := searchKv header
  let material :=
    if hasSub "copper".toList header || hasSub " cu ".toList header then
      some "Copper".toList
    else if hasSub "aluminium".toList header || hasSub "aluminum".toList header ||
            hasSub " al ".toList header then
      some "Aluminium".toList
    else none
  (voltage_kv, material)

/-- `extract_header_insulation_and_outer` from `src/app.py`. -/
def extract_header_insulation_and_outer (lines : List Chars) :
    Option Chars × Option Chars :=
  let header := headerJoin 3 lines
  let insulation :=
    if hasSub "xlpe".toList header then some "XLPE".toList
    else if hasSub "epr".toList header then some "EPR".toList
    else if hasSub "pvc".toList header then some "PVC".toList
    else if hasSub "pe insulation".toList header || hasSub "pe insulated".toList header ||
            hasSub " pe ".toList header then some "PE".toList
    else if hasSub "oil-filled".toList header || hasSub "oil filled".toList header then
      some "oil".toList
    else none
  let outer_sheath :=
    match outerSearchAux none header with
    | some w =>
      let mat := w.map Char.toUpper
      if mat = "PE".toList || mat = "PVC".toList || mat = "XLPE".toList ||
         mat = "EPR".toList || mat = "OIL".toList then some mat
      else none
    | none => none
  (insulation, outer_sheath)

/-- `extract_conductor_and_sheath_material_from_header` from `src/app.py`. -/
def extract_conductor_and_sheath_material_from_header (lines : List Chars) :
    Option Chars × Option Chars :=
  let header := headerJoin 4 lines
  let conductor :=
    if searchMatWord ["copper".toList, "cu".toList] "conductor".toList none header then
      some "Copper".toList
    else if searchMatWord ["aluminium".toList, "aluminum".toList, "al".toList]
              "conductor".toList none header then
      some "Aluminium".toList
    else none
  let sheath :=
    if searchMatWord ["aluminium".toList, "aluminum".toList, "al".toList]
         "sheath".toList none header then some "aluminium".toList
    else if searchMatWord ["copper".toList, "cu".toList] "sheath".toList none header then
      some "copper".toList
    else if searchMatWord ["lead".toList] "sheath".toList none header then
      some "lead".toList
    else if searchMatWord ["steel".toList] "sheath".toList none header then
      some "steel".toList
    else if searchMatWord ["bronze".toList] "sheath".toList none header then
      some "bronze".toList
    else none
  (conductor, sheath)

/-- `detect_conductor_material_global` from `src/app.py`. -/
def detect_conductor_material_global (text : Chars) : Option Chars :=
  let lower := lowerCs text
  if hasSub "copper conductor".toList lower || hasSub "cu conductor".toList lower then
    some "Copper".toList
  else if hasSub "aluminium conductor".toList lower ||
          hasSub "aluminum conductor".toList lower ||
          hasSub "al conductor".toList lower then
    some "Aluminium".toList
  else
    let has_copper := hasSub "copper".toList lower || hasSub " cu ".toList lower
    let has_al := hasSub "aluminium".toList lower || hasSub "aluminum".toList lower ||
                  hasSub " al ".toList lower
    if has_copper && !has_al then some "Copper".toList
    else if has_al && !has_copper then some "Aluminium".toList
    else none

/-- `extract_rated_voltages` from `src/app.py`. -/
def extract_rated_voltages (text : Chars) : List ℚ :=
  match ratedSearch (lowerCs text) with
  | none => []
  | some grp => numTokens false grp

/-- The keyword tuple of the short-circuit detectors. -/
def sccKeywords : List Chars :=
  ["short".toList, "circuit".toList, "fault".toList, "ik".toList, "isc".toList]

/-- In-range numeric candidates of one line (`0 < val < 1000`). -/
def sccLineCandidates (line : Chars) : List ℚ :=
  (numTokens true line).filter fun v => decide (0 < v) && decide (v < 1000)

/-- Pass 1 of `extract_short_circuit_current`: keyword lines that also
contain a `k` and an `a`. -/
def sccPass1 : List Chars → List ℚ
  | [] => []
  | line :: rest =>
    let lower := lowerCs line
    (if (sccKeywords.any fun k => hasSub k lower) &&
        hasSub ['k'] lower && hasSub ['a'] lower
     then sccLineCandidates line else []) ++ sccPass1 rest

/-- Pass 2 of `extract_short_circuit_current`: any line with a `k` and an `a`. -/
def sccPass2 : List Chars → List ℚ
  | [] => []
  | line :: rest =>
    let lower := lowerCs line
    (if hasSub ['k'] lower && hasSub ['a'] lower
     then sccLineCandidates line else []) ++ sccPass2 rest

/-- Python `max` of a non-empty list (the `[]` branch is never reached). -/
def pyMax : List ℚ → ℚ
  | [] => 0
  | x :: xs => xs.foldl max x

/-- `extract_short_circuit_current` from `src/app.py`. -/
def extract_short_circuit_current (text : Chars) : Option ℚ :=
  let lines := splitlines text
  let c1 := sccPass1 lines
  let candidates := if c1.isEmpty then sccPass2 lines else c1
  if candidates.isEmpty then none else some (pyMax candidates)

/-- Pass 1 of `extract_time_seconds`: first duration match inside a
keyword line. -/
def timePass1 : List Chars → Option ℚ
  | [] => none
  | line :: rest =>
    let lower := lowerCs line
    if sccKeywords.any fun k => hasSub k lower then
      match timeSearch lower with
      | some v => some v
      | none => timePass1 rest
    else timePass1 rest

/-- `extract_time_seconds` from `src/app.py`. -/
def extract_time_seconds (text : Chars) : Option ℚ :=
  match timePass1 (splitlines text) with
  | some v => some v
  | none => timeSearch text

/-- `infer_k_and_beta` from `src/app.py` (234.5 is the exact rational 469/2). -/
def infer_k_and_beta (material : Option Chars) : Option ℚ × Option ℚ :=
  match material with
  | none => (none, none)
  | some s =>
    if s.isEmpty then (none, none)
    else
      let mat_key := lowerCs s
      if mat_key = "copper".toList then (some 226, some (469 / 2))
      else if mat_key = "aluminium".toList then (some 148, some 228)
      else if mat_key = "aluminum".toList then (some 148, some 228)
      else (none, none)

/-- Inner loop of `choose_main_voltage`: first list value within `1e-6`
of the standard value `p`. -/
def findMatch (p : ℚ) : List ℚ → Option ℚ
  | [] => none
  | v :: vs => if |v - p| < 1 / 1000000 then some v else findMatch p vs

/-- Outer loop of `choose_main_voltage` over the preferred standards. -/
def findStdAux (rv : List ℚ) : List ℚ → Option ℚ
  | [] => none
  | p :: ps =>
    match findMatch p rv with
    | some v => some v
    | none => findStdAux rv ps

/-- `choose_main_voltage` from `src/app.py`. -/
def choose_main_voltage (header_voltage : Option ℚ) (rated_voltages : List ℚ) :
    Option ℚ :=
  if !rated_voltages.isEmpty then
    match findStdAux rated_voltages [400, 220, 132, 66, 33, 11] with
    | some v => some v
    | none => some (pyMax rated_voltages)
  else header_voltage

/-! ## The resolved record (`extract_cable_parameters`) -/

/-- A Python value as it appears in the result dict. -/
inductive PyVal
  | vnum (q : ℚ)
  | vstr (s : Chars)
  | vlist (l : List ℚ)
  | vnone
deriving DecidableEq

/-- Optional number to dict value. -/
def optNum : Option ℚ → PyVal
  | none => .vnone
  | some q => .vnum q

/-- Optional string to dict value. -/
def optStr : Option Chars → PyVal
  | none => .vnone
  | some s => .vstr s

/-- `extract_cable_parameters` from `src/app.py`; the dict is modelled as
an association list in insertion order. -/
def extract_cable_parameters (text : Chars) : List (Chars × PyVal) :=
  let lines := get_first_nonempty_lines text 8
  let hv := extract_header_voltage_and_material lines
  let insOut := extract_header_insulation_and_outer lines
  let condSheath := extract_conductor_and_sheath_material_from_header lines
  let conductor_material :=
    condSheath.1 <|> detect_conductor_material_global text <|> hv.2
  let rated_voltages := extract_rated_voltages text
  let scc_ka := extract_short_circuit_current text
  let time_sec := extract_time_seconds text
  let main_voltage := choose_main_voltage hv.1 rated_voltages
  let kb := infer_k_and_beta conductor_material
  [("voltageKv".toList, optNum main_voltage),
   ("sccKa".toList, optNum scc_ka),
   ("timeSec".toList, optNum time_sec),
   ("material".toList, optStr conductor_material),
   ("conductorMaterial".toList, optStr conductor_material),
   ("sheathMaterial".toList, optStr condSheath.2),
   ("insulationMaterial".toList, optStr insOut.1),
   ("outerSheathMaterial".toList, optStr insOut.2),
   ("ratedVoltages".toList, PyVal.vlist rated_voltages),
   ("kValue".toList, optNum kb.1),
   ("beta".toList, optNum kb.2),
   ("rawTextSample".toList, PyVal.vstr (List.intercalate ['\n'] lines))]

/-- Dict lookup on the association-list model. -/
def lookupKey (k : Chars) : List (Chars × PyVal) → Option PyVal
  | [] => none
  | kv :: rest => if kv.1 = k then some kv.2 else lookupKey k rest

/-! ## Claim-side vocabulary -/

/-- The ten semantic fields of the CableParameterRecord data model. -/
def cableRecordFields : List Chars :=
  ["voltageKv".toList, "sccKa".toList, "timeSec".toList,
   "conductorMaterial".toList, "sheathMaterial".toList,
   "insulationMaterial".toList, "outerSheathMaterial".toList,
   "ratedVoltages".toList, "kValue".toList, "beta".toList]

/-- Keys actually emitted by `extract_cable_parameters`, in insertion order. -/
def actualRecordFields : List Chars :=
  ["voltageKv".toList, "sccKa".toList, "timeSec".toList, "material".toList,
   "conductorMaterial".toList, "sheathMaterial".toList,
   "insulationMaterial".toList, "outerSheathMaterial".toList,
   "ratedVoltages".toList, "kValue".toList, "beta".toList,
   "rawTextSample".toList]

/-- Spec formulation of the standard-voltage preference: for the first
standard (in priority order 400, 220, 132, 66, 33, 11) that some list
value matches within `1e-6`, the first matching value in list order. -/
def specStdPick (rv : List ℚ) : Option ℚ :=
  ([400, 220, 132, 66, 33, 11] : List ℚ).findSome? fun p =>
    rv.find? fun v => decide (|v - p| < 1 / 1000000)

/-- Strong copper phrase of the global conductor detector. -/
def strongCopperCue (text : Chars) : Bool :=
  hasSub "copper conductor".toList (lowerCs text) ||
  hasSub "cu conductor".toList (lowerCs text)

/-- Strong aluminium phrase of the global conductor detector. -/
def strongAlCue (text : Chars) : Bool :=
  hasSub "aluminium conductor".toList (lowerCs text) ||
  hasSub "aluminum conductor".toList (lowerCs text) ||
  hasSub "al conductor".toList (lowerCs text)

/-- Weak copper cue set of the global conductor detector. -/
def copperCue (text : Chars) : Bool :=
  hasSub "copper".toList (lowerCs text) || hasSub " cu ".toList (lowerCs text)

/-- Weak aluminium cue set of the global conductor detector. -/
def alCue (text : Chars) : Bool :=
  hasSub "aluminium".toList (lowerCs text) ||
  hasSub "aluminum".toList (lowerCs text) ||
  hasSub " al ".toList (lowerCs text)

/-- Qualifying line of Pass 1 of the short-circuit current search. -/
def sccQual1 (line : Chars) : Bool :=
  (sccKeywords.any fun k => hasSub k (lowerCs line)) &&
  hasSub ['k'] (lowerCs line) && hasSub ['a'] (lowerCs line)

/-- Qualifying line of Pass 2 of the short-circuit current search. -/
def sccQual2 (line : Chars) : Bool :=
  hasSub ['k'] (lowerCs line) && hasSub ['a'] (lowerCs line)

/-- Keyword-line condition of the duration search. -/
def timeQual (line : Chars) : Bool :=
  sccKeywords.any fun k => hasSub k (lowerCs line)

/-- The case-folded join of the first `n` header lines, as the detectors
build it. -/
def headerN (text : Chars) (n : Nat) : Chars :=
  headerJoin n (get_first_nonempty_lines text n)

/-- Outer-sheath whitelist of the insulation detector. -/
def outerWhitelist : List Chars :=
  ["PE".toList, "PVC".toList, "XLPE".toList, "EPR".toList, "OIL".toList]

/-- The sheath-material enumeration of the data model. -/
def sheathEnum : List Chars :=
  ["Copper".toList, "Aluminium".toList, "Lead".toList, "Steel".toList,
   "Bronze".toList]

/-- The resolved conductor material of `extract_cable_parameters`
(header-scoped detector, else global detector, else header generic
material). -/
def resolvedConductor (text : Chars) : Option Chars :=
  (extract_conductor_and_sheath_material_from_header
    (get_first_nonempty_lines text 8)).1 <|>
  detect_conductor_material_global text <|>
  (extract_header_voltage_and_material (get_first_nonempty_lines text 8)).2

/-- Aluminium cue of the sheath detector over the 4-line header. -/
def sheathCueAl (text : Chars) : Bool :=
  searchMatWord ["aluminium".toList, "aluminum".toList, "al".toList]
    "sheath".toList none (headerN text 4)

/-- Copper cue of the sheath detector over the 4-line header. -/
def sheathCueCu (text : Chars) : Bool :=
  searchMatWord ["copper".toList, "cu".toList] "sheath".toList none
    (headerN text 4)

/-- Lead cue of the sheath detector over the 4-line header. -/
def sheathCueLead (text : Chars) : Bool :=
  searchMatWord ["lead".toList] "sheath".toList none (headerN text 4)

/-- Steel cue of the sheath detector over the 4-line header. -/
def sheathCueSteel (text : Chars) : Bool :=
  searchMatWord ["steel".toList] "sheath".toList none (headerN text 4)

/-- Bronze cue of the sheath detector over the 4-line header. -/
def sheathCueBronze (text : Chars) : Bool :=
  searchMatWord ["bronze".toList] "sheath".toList none (headerN text 4)

/-! ## Concrete example texts (from the spec's testable properties) -/

/-- Spec example: a lone RATED VOLTAGE line. -/
def exRatedText : Chars := "RATED VOLTAGE : 220/400/420 kV".toList

/-- Spec example: header with a voltage but no rated-voltage label. -/
def exHeaderText : Chars := "132kV XLPE Cable".toList

/-- Spec example: short-circuit current and duration line. -/
def exFaultText : Chars := "Fault current Isc = 40 kA for 3 sec".toList

/-- Spec example: a bare strong conductor phrase. -/
def exCopperText : Chars := "copper conductor".toList

/-- A text with no rated-voltage label at all. -/
def exNoLabelText : Chars := "no label here".toList

/-- Spec example: full descriptive header line. -/
def exCableText : Chars :=
  "6 segment Aluminium conductor, XLPE insulation, smooth Aluminium sheath and PE outer sheath".toList

/-! ## Helper lemmas -/

theorem le_foldl_max (xs : List ℚ) : ∀ x : ℚ, x ≤ xs.foldl max x := by
  induction xs with
  | nil => intro x; exact le_refl x
  | cons y ys ih =>
    intro x
    exact le_trans (le_max_left x y) (ih (max x y))

theorem mem_le_foldl_max (xs : List ℚ) :
    ∀ (x y : ℚ), y ∈ xs → y ≤ xs.foldl max x := by
  induction xs with
  | nil => intro x y hy; cases hy
  | cons z zs ih =>
    intro x y hy
    rcases List.mem_cons.mp hy with h | h
    · subst h
      exact le_trans (le_max_right x y) (le_foldl_max zs (max x y))
    · exact ih (max x z) y h

theorem foldl_max_eq_or_mem (xs : List ℚ) :
    ∀ x : ℚ, xs.foldl max x = x ∨ xs.foldl max x ∈ xs := by
  induction xs with
  | nil => intro x; exact Or.inl rfl
  | cons y ys ih =>
    intro x
    rcases ih (max x y) with h | h
    · rcases max_choice x y with h2 | h2
      · exact Or.inl (by rw [List.foldl_cons, h, h2])
      · exact Or.inr (List.mem_cons.mpr (Or.inl (by rw [List.foldl_cons, h, h2])))
    · exact Or.inr (List.mem_cons.mpr (Or.inr (by rw [List.foldl_cons]; exact h)))

theorem pyMax_mem {l : List ℚ} (h : l ≠ []) : pyMax l ∈ l := by
  cases l with
  | nil => exact absurd rfl h
  | cons x xs =>
    rcases foldl_max_eq_or_mem xs x with h2 | h2
    · exact List.mem_cons.mpr (Or.inl (by rw [pyMax, h2]))
    · exact List.mem_cons.mpr (Or.inr (by rw [pyMax]; exact h2))

theorem pyMax_ge {l : List ℚ} {y : ℚ} (hy : y ∈ l) : y ≤ pyMax l := by
  cases l with
  | nil => cases hy
  | cons x xs =>
    rcases List.mem_cons.mp hy with h | h
    · subst h; exact le_foldl_max xs y
    · exact mem_le_foldl_max xs x y h

theorem findMatch_eq_find? (p : ℚ) (l : List ℚ) :
    findMatch p l = l.find? fun v => decide (|v - p| < 1 / 1000000) := by
  induction l with
  | nil => rfl
  | cons v vs ih =>
    simp only [findMatch, List.find?]
    by_cases h : |v - p| < 1 / 1000000
    · rw [if_pos h, decide_eq_true h]
    · rw [if_neg h, decide_eq_false h, ih]

theorem findStdAux_eq_findSome? (rv : List ℚ) (ps : List ℚ) :
    findStdAux rv ps = ps.findSome? fun p => findMatch p rv := by
  induction ps with
  | nil => rfl
  | cons p ps ih =>
    cases h : findMatch p rv <;>
      simp [findStdAux, List.findSome?, h, ih]

theorem findStdAux_eq_specStdPick (rv : List ℚ) :
    findStdAux rv [400, 220, 132, 66, 33, 11] = specStdPick rv := by
  rw [findStdAux_eq_findSome?, specStdPick]
  congr 1
  funext p
  exact findMatch_eq_find? p rv

theorem choose_main_voltage_empty (hv : Option ℚ) :
    choose_main_voltage hv [] = hv := rfl

theorem choose_main_voltage_std {hv : Option ℚ} {rv : List ℚ} {w : ℚ}
    (h : rv ≠ []) (hs : specStdPick rv = some w) :
    choose_main_voltage hv rv = some w := by
  cases rv with
  | nil => exact absurd rfl h
  | cons x xs =>
    show (match findStdAux (x :: xs) [400, 220, 132, 66, 33, 11] with
          | some v => some v
          | none => some (pyMax (x :: xs))) = some w
    rw [findStdAux_eq_specStdPick, hs]

theorem choose_main_voltage_max {hv : Option ℚ} {rv : List ℚ}
    (h : rv ≠ []) (hs : specStdPick rv = none) :
    choose_main_voltage hv rv = some (pyMax rv) := by
  cases rv with
  | nil => exact absurd rfl h
  | cons x xs =>
    show (match findStdAux (x :: xs) [400, 220, 132, 66, 33, 11] with
          | some v => some v
          | none => some (pyMax (x :: xs))) = some (pyMax (x :: xs))
    rw [findStdAux_eq_specStdPick, hs]

theorem specStdPick_mem {rv : List ℚ} {w : ℚ} (hs : specStdPick rv = some w) :
    w ∈ rv := by
  obtain ⟨p, _, hp⟩ := List.exists_of_findSome?_eq_some hs
  exact List.mem_of_find?_eq_some hp

theorem gfnl_take (text : Chars) {n m : Nat} (h : n ≤ m) :
    (get_first_nonempty_lines text m).take n = get_first_nonempty_lines text n := by
  unfold get_first_nonempty_lines
  rw [List.take_take, min_eq_left h]

theorem take_isEmpty_of_pos {α : Type} (F : List α) {n m : Nat}
    (hn : 0 < n) (hm : 0 < m) : (F.take n).isEmpty = (F.take m).isEmpty := by
  cases F with
  | nil => simp
  | cons a l =>
    cases n with
    | zero => omega
    | succ n =>
      cases m with
      | zero => omega
      | succ m => simp [List.take_succ_cons]

theorem gfnl_isEmpty (text : Chars) {n m : Nat} (hn : 0 < n) (hm : 0 < m) :
    (get_first_nonempty_lines text n).isEmpty =
    (get_first_nonempty_lines text m).isEmpty := by
  unfold get_first_nonempty_lines
  exact take_isEmpty_of_pos _ hn hm

theorem headerJoin_gfnl (text : Chars) {n : Nat} (hn : 0 < n) (h8 : n ≤ 8) :
    headerJoin n (get_first_nonempty_lines text 8) = headerN text n := by
  rw [headerN, headerJoin, headerJoin, gfnl_take text h8,
    gfnl_isEmpty text (by omega : (0:Nat) < 8) hn]
  cases h : (get_first_nonempty_lines text n).isEmpty <;> simp [h]
  rw [gfnl_take text (le_refl n)]

/-! ## Field-lookup lemmas (the dict entry of each field) -/

theorem lookup_voltageKv (text : Chars) :
    lookupKey "voltageKv".toList (extract_cable_parameters text) =
      some (optNum (choose_main_voltage
        (extract_header_voltage_and_material (get_first_nonempty_lines text 8)).1
        (extract_rated_voltages text))) := rfl

theorem lookup_sccKa (text : Chars) :
    lookupKey "sccKa".toList (extract_cable_parameters text) =
      some (optNum (extract_short_circuit_current text)) := rfl

theorem lookup_timeSec (text : Chars) :
    lookupKey "timeSec".toList (extract_cable_parameters text) =
      some (optNum (extract_time_seconds text)) := rfl

theorem lookup_conductorMaterial (text : Chars) :
    lookupKey "conductorMaterial".toList (extract_cable_parameters text) =
      some (optStr
        ((extract_conductor_and_sheath_material_from_header
            (get_first_nonempty_lines text 8)).1 <|>
         detect_conductor_material_global text <|>
         (extract_header_voltage_and_material (get_first_nonempty_lines text 8)).2)) :=
  rfl

theorem lookup_material (text : Chars) :
    lookupKey "material".toList (extract_cable_parameters text) =
      lookupKey "conductorMaterial".toList (extract_cable_parameters text) := rfl

theorem lookup_sheathMaterial (text : Chars) :
    lookupKey "sheathMaterial".toList (extract_cable_parameters text) =
      some (optStr (extract_conductor_and_sheath_material_from_header
        (get_first_nonempty_lines text 8)).2) := rfl

theorem lookup_insulationMaterial (text : Chars) :
    lookupKey "insulationMaterial".toList (extract_cable_parameters text) =
      some (optStr (extract_header_insulation_and_outer
        (get_first_nonempty_lines text 8)).1) := rfl

theorem lookup_outerSheathMaterial (text : Chars) :
    lookupKey "outerSheathMaterial".toList (extract_cable_parameters text) =
      some (optStr (extract_header_insulation_and_outer
        (get_first_nonempty_lines text 8)).2) := rfl

theorem lookup_ratedVoltages (text : Chars) :
    lookupKey "ratedVoltages".toList (extract_cable_parameters text) =
      some (PyVal.vlist (extract_rated_voltages text)) := rfl

theorem lookup_kValue (text : Chars) :
    lookupKey "kValue".toList (extract_cable_parameters text) =
      some (optNum (infer_k_and_beta
        ((extract_conductor_and_sheath_material_from_header
            (get_first_nonempty_lines text 8)).1 <|>
         detect_conductor_material_global text <|>
         (extract_header_voltage_and_material (get_first_nonempty_lines text 8)).2)).1) :=
  rfl

theorem lookup_beta (text : Chars) :
    lookupKey "beta".toList (extract_cable_parameters text) =
      some (optNum (infer_k_and_beta
        ((extract_conductor_and_sheath_material_from_header
            (get_first_nonempty_lines text 8)).1 <|>
         detect_conductor_material_global text <|>
         (extract_header_voltage_and_material (get_first_nonempty_lines text 8)).2)).2) :=
  rfl

/-! ## Detector shape lemmas (definitional unfoldings) -/

theorem hv_fst_shape (lines : List Chars) :
    (extract_header_voltage_and_material lines).1 =
      searchKv (headerJoin 2 lines) := rfl

theorem hv_snd_shape (lines : List Chars) :
    (extract_header_voltage_and_material lines).2 =
      (if hasSub "copper".toList (headerJoin 2 lines) ||
          hasSub " cu ".toList (headerJoin 2 lines) then
        some "Copper".toList
      else if hasSub "aluminium".toList (headerJoin 2 lines) ||
              hasSub "aluminum".toList (headerJoin 2 lines) ||
              hasSub " al ".toList (headerJoin 2 lines) then
        some "Aluminium".toList
      else none) := rfl

theorem ins_fst_shape (lines : List Chars) :
    (extract_header_insulation_and_outer lines).1 =
      (if hasSub "xlpe".toList (headerJoin 3 lines) then some "XLPE".toList
      else if hasSub "epr".toList (headerJoin 3 lines) then some "EPR".toList
      else if hasSub "pvc".toList (headerJoin 3 lines) then some "PVC".toList
      else if hasSub "pe insulation".toList (headerJoin 3 lines) ||
              hasSub "pe insulated".toList (headerJoin 3 lines) ||
              hasSub " pe ".toList (headerJoin 3 lines) then some "PE".toList
      else if hasSub "oil-filled".toList (headerJoin 3 lines) ||
              hasSub "oil filled".toList (headerJoin 3 lines) then
        some "oil".toList
      else none) := rfl

theorem ins_snd_shape (lines : List Chars) :
    (extract_header_insulation_and_outer lines).2 =
      (match outerSearchAux none (headerJoin 3 lines) with
      | some w =>
        if w.map Char.toUpper = "PE".toList ∨ w.map Char.toUpper = "PVC".toList ∨
           w.map Char.toUpper = "XLPE".toList ∨ w.map Char.toUpper = "EPR".toList ∨
           w.map Char.toUpper = "OIL".toList then some (w.map Char.toUpper)
        else none
      | none => none) := by
  show (match outerSearchAux none (headerJoin 3 lines) with
      | some w =>
        let mat := w.map Char.toUpper
        if mat = "PE".toList || mat = "PVC".toList || mat = "XLPE".toList ||
           mat = "EPR".toList || mat = "OIL".toList then some mat
        else none
      | none => none) = _
  cases outerSearchAux none (headerJoin 3 lines) with
  | none => rfl
  | some w =>
    by_cases h : w.map Char.toUpper = "PE".toList ∨ w.map Char.toUpper = "PVC".toList ∨
        w.map Char.toUpper = "XLPE".toList ∨ w.map Char.toUpper = "EPR".toList ∨
        w.map Char.toUpper = "OIL".toList
    · simp only [if_pos h]
      have hb : (w.map Char.toUpper = "PE".toList || w.map Char.toUpper = "PVC".toList ||
          w.map Char.toUpper = "XLPE".toList || w.map Char.toUpper = "EPR".toList ||
          w.map Char.toUpper = "OIL".toList : Bool) = true := by
        simp only [Bool.or_eq_true, decide_eq_true_eq]
        tauto
      simp only [hb, if_true]
    · simp only [if_neg h]
      have hb : (w.map Char.toUpper = "PE".toList || w.map Char.toUpper = "PVC".toList ||
          w.map Char.toUpper = "XLPE".toList || w.map Char.toUpper = "EPR".toList ||
          w.map Char.toUpper = "OIL".toList : Bool) = false := by
        simp only [Bool.or_eq_false_iff, decide_eq_false_iff_not]
        tauto
      simp only [hb]
      rfl

theorem infer_none_or_both_some (o : Option Chars) :
    infer_k_and_beta o = (none, none) ∨
    ∃ k b, infer_k_and_beta o = (some k, some b) := by
  rcases o with - | s
  · exact Or.inl rfl
  · rw [infer_k_and_beta]
    by_cases he : s.isEmpty = true
    · rw [if_pos he]; exact Or.inl rfl
    · rw [if_neg he]
      by_cases h1 : lowerCs s = "copper".toList
      · rw [if_pos h1]; exact Or.inr ⟨_, _, rfl⟩
      · rw [if_neg h1]
        by_cases h2 : lowerCs s = "aluminium".toList
        · rw [if_pos h2]; exact Or.inr ⟨_, _, rfl⟩
        · rw [if_neg h2]
          by_cases h3 : lowerCs s = "aluminum".toList
          · rw [if_pos h3]; exact Or.inr ⟨_, _, rfl⟩
          · rw [if_neg h3]; exact Or.inl rfl

theorem infer_unrecognized {s : Chars}
    (h1 : lowerCs s ≠ "copper".toList)
    (h2 : lowerCs s ≠ "aluminium".toList)
    (h3 : lowerCs s ≠ "aluminum".toList) :
    infer_k_and_beta (some s) = (none, none) := by
  rw [infer_k_and_beta]
  by_cases he : s.isEmpty = true
  · rw [if_pos he]
  · rw [if_neg he, if_neg h1, if_neg h2, if_neg h3]

theorem sccPass1_eq_filter (ls : List Chars) :
    sccPass1 ls = (ls.filter sccQual1).flatMap sccLineCandidates := by
  induction ls with
  | nil => rfl
  | cons l rest ih =>
    show (if sccQual1 l then sccLineCandidates l else []) ++ sccPass1 rest = _
    rw [List.filter_cons]
    cases h : sccQual1 l <;> simp [h, ih]

theorem sccPass2_eq_filter (ls : List Chars) :
    sccPass2 ls = (ls.filter sccQual2).flatMap sccLineCandidates := by
  induction ls with
  | nil => rfl
  | cons l rest ih =>
    show (if sccQual2 l then sccLineCandidates l else []) ++ sccPass2 rest = _
    rw [List.filter_cons]
    cases h : sccQual2 l <;> simp [h, ih]

theorem timePass1_some {ls : List Chars} {v : ℚ} (h : timePass1 ls = some v) :
    ∃ line, line ∈ ls ∧ timeQual line = true ∧
      timeSearch (lowerCs line) = some v := by
  induction ls with
  | nil => cases h
  | cons l rest ih =>
    have hshow : timePass1 (l :: rest) =
        (if timeQual l then
          (match timeSearch (lowerCs l) with
           | some w => some w
           | none => timePass1 rest)
         else timePass1 rest) := rfl
    rw [hshow] at h
    by_cases hq : timeQual l = true
    · rw [if_pos hq] at h
      cases ht : timeSearch (lowerCs l) with
      | some w =>
        rw [ht] at h
        exact ⟨l, List.mem_cons_self l rest, hq, by rw [ht]; exact h⟩
      | none =>
        rw [ht] at h
        obtain ⟨line, hm, hq2, hs⟩ := ih h
        exact ⟨line, List.mem_cons.mpr (Or.inr hm), hq2, hs⟩
    · rw [if_neg hq] at h
      obtain ⟨line, hm, hq2, hs⟩ := ih h
      exact ⟨line, List.mem_cons.mpr (Or.inr hm), hq2, hs⟩

theorem ratedAt_has_rated {s : Chars} {g : Chars} (h : ratedAt s = some g) :
    "rated".toList.isPrefixOf s = true := by
  by_cases hp : "rated".toList.isPrefixOf s = true
  · exact hp
  · rw [ratedAt, if_neg hp] at h
    cases h

theorem ratedSearch_has_rated {s : Chars} {g : Chars}
    (h : ratedSearch s = some g) : hasSub "rated".toList s = true := by
  induction s with
  | nil => cases h
  | cons c rest ih =>
    have hshow : ratedSearch (c :: rest) =
        (match ratedAt (c :: rest) with
         | some g0 => some g0
         | none => ratedSearch rest) := rfl
    rw [hshow] at h
    cases ha : ratedAt (c :: rest) with
    | some g0 =>
      rw [hasSub]
      exact Bool.or_eq_true_iff.mpr (Or.inl (ratedAt_has_rated ha))
    | none =>
      rw [ha] at h
      rw [hasSub]
      exact Bool.or_eq_true_iff.mpr (Or.inr (ih h))

theorem cond_fst_shape (lines : List Chars) :
    (extract_conductor_and_sheath_material_from_header lines).1 =
      (if searchMatWord ["copper".toList, "cu".toList] "conductor".toList none
            (headerJoin 4 lines) then some "Copper".toList
      else if searchMatWord ["aluminium".toList, "aluminum".toList, "al".toList]
            "conductor".toList none (headerJoin 4 lines) then some "Aluminium".toList
      else none) := rfl

theorem cond_snd_shape (lines : List Chars) :
    (extract_conductor_and_sheath_material_from_header lines).2 =
      (if searchMatWord ["aluminium".toList, "aluminum".toList, "al".toList]
            "sheath".toList none (headerJoin 4 lines) then some "aluminium".toList
      else if searchMatWord ["copper".toList, "cu".toList] "sheath".toList none
            (headerJoin 4 lines) then some "copper".toList
      else if searchMatWord ["lead".toList] "sheath".toList none
            (headerJoin 4 lines) then some "lead".toList
      else if searchMatWord ["steel".toList] "sheath".toList none
            (headerJoin 4 lines) then some "steel".toList
      else if searchMatWord ["bronze".toList] "sheath".toList none
            (headerJoin 4 lines) then some "bronze".toList
      else none) := rfl

theorem global_shape (text : Chars) :
    detect_conductor_material_global text =
      (if strongCopperCue text then some "Copper".toList
      else if strongAlCue text then some "Aluminium".toList
      else if copperCue text && !alCue text then some "Copper".toList
      else if alCue text && !copperCue text then some "Aluminium".toList
      else none) := rfl

/-- Range of a two-branch optional conditional. -/
theorem ite_opt_range2 {α : Type} (c1 c2 : Bool) (a b : α) :
    (if c1 then some a else if c2 then some b else none) = none ∨
    (if c1 then some a else if c2 then some b else none) = some a ∨
    (if c1 then some a else if c2 then some b else none) = some b := by
  cases c1 <;> cases c2 <;> simp

theorem hdrCond_range (lines : List Chars) :
    (extract_conductor_and_sheath_material_from_header lines).1 = none ∨
    (extract_conductor_and_sheath_material_from_header lines).1 =
      some "Copper".toList ∨
    (extract_conductor_and_sheath_material_from_header lines).1 =
      some "Aluminium".toList := by
  rw [cond_fst_shape]
  exact ite_opt_range2 _ _ _ _

theorem hv_material_range (lines : List Chars) :
    (extract_header_voltage_and_material lines).2 = none ∨
    (extract_header_voltage_and_material lines).2 = some "Copper".toList ∨
    (extract_header_voltage_and_material lines).2 = some "Aluminium".toList := by
  rw [hv_snd_shape]
  exact ite_opt_range2 _ _ _ _

theorem global_range (text : Chars) :
    detect_conductor_material_global text = none ∨
    detect_conductor_material_global text = some "Copper".toList ∨
    detect_conductor_material_global text = some "Aluminium".toList := by
  rw [global_shape]
  cases h1 : strongCopperCue text <;> cases h2 : strongAlCue text <;>
    cases h3 : copperCue text && !alCue text <;>
    cases h4 : alCue text && !copperCue text <;> simp

theorem optStr_eq_vnone {o : Option Chars} :
    optStr o = PyVal.vnone ↔ o = none := by cases o <;> simp [optStr]

theorem optStr_eq_vstr {o : Option Chars} {s : Chars} :
    optStr o = PyVal.vstr s ↔ o = some s := by cases o <;> simp [optStr]

theorem optNum_eq_vnum {o : Option ℚ} {q : ℚ} :
    optNum o = PyVal.vnum q ↔ o = some q := by cases o <;> simp [optNum]

theorem optNum_eq_vnone {o : Option ℚ} :
    optNum o = PyVal.vnone ↔ o = none := by cases o <;> simp [optNum]

theorem lookup_cm_res (text : Chars) :
    lookupKey "conductorMaterial".toList (extract_cable_parameters text) =
      some (optStr (resolvedConductor text)) := rfl

theorem lookup_kValue_res (text : Chars) :
    lookupKey "kValue".toList (extract_cable_parameters text) =
      some (optNum (infer_k_and_beta (resolvedConductor text)).1) := rfl

theorem lookup_beta_res (text : Chars) :
    lookupKey "beta".toList (extract_cable_parameters text) =
      some (optNum (infer_k_and_beta (resolvedConductor text)).2) := rfl

theorem resolved_cm_range (text : Chars) :
    resolvedConductor text = none ∨
    resolvedConductor text = some "Copper".toList ∨
    resolvedConductor text = some "Aluminium".toList := by
  rw [resolvedConductor]
  rcases hdrCond_range (get_first_nonempty_lines text 8) with h | h | h <;>
    rcases global_range text with g | g | g <;>
    rcases hv_material_range (get_first_nonempty_lines text 8) with v | v | v <;>
    simp [h, g, v]

theorem scc_result_pass1 {text : Chars} (h : sccPass1 (splitlines text) ≠ []) :
    extract_short_circuit_current text =
      some (pyMax (sccPass1 (splitlines text))) := by
  rcases hl : sccPass1 (splitlines text) with - | ⟨x, xs⟩
  · exact absurd hl h
  · show (if (if (sccPass1 (splitlines text)).isEmpty then sccPass2 (splitlines text)
            else sccPass1 (splitlines text)).isEmpty then none
          else some (pyMax (if (sccPass1 (splitlines text)).isEmpty
            then sccPass2 (splitlines text) else sccPass1 (splitlines text)))) = _
    rw [hl]
    simp [List.isEmpty]

theorem scc_result_pass2 {text : Chars} (h1 : sccPass1 (splitlines text) = []) :
    extract_short_circuit_current text =
      (if (sccPass2 (splitlines text)).isEmpty then none
       else some (pyMax (sccPass2 (splitlines text)))) := by
  show (if (if (sccPass1 (splitlines text)).isEmpty then sccPass2 (splitlines text)
          else sccPass1 (splitlines text)).isEmpty then none
        else some (pyMax (if (sccPass1 (splitlines text)).isEmpty
          then sccPass2 (splitlines text) else sccPass1 (splitlines text)))) = _
  rw [h1]
  simp [List.isEmpty]

/-! ## Claim theorems -/

/-- C1: for every input text, extraction terminates (the model is a total
function) and returns a record in which every semantic field of the data
model is present, each bound to a detected value or to null
(`optNum`/`optStr` produce exactly a value or `vnone`; the rated-voltage
field is always a list, possibly empty). -/
theorem extraction_total_and_complete (text : Chars) :
    (cableRecordFields.all fun k =>
      (lookupKey k (extract_cable_parameters text)).isSome) = true ∧
    ∃ (mv sc ts : Option ℚ) (cm sm im om : Option Chars) (rv : List ℚ)
      (kv bv : Option ℚ) (raw : Chars),
      extract_cable_parameters text =
        [("voltageKv".toList, optNum mv), ("sccKa".toList, optNum sc),
         ("timeSec".toList, optNum ts), ("material".toList, optStr cm),
         ("conductorMaterial".toList, optStr cm),
         ("sheathMaterial".toList, optStr sm),
         ("insulationMaterial".toList, optStr im),
         ("outerSheathMaterial".toList, optStr om),
         ("ratedVoltages".toList, PyVal.vlist rv),
         ("kValue".toList, optNum kv), ("beta".toList, optNum bv),
         ("rawTextSample".toList, PyVal.vstr raw)] := by
  exact ⟨rfl, _, _, _, _, _, _, _, _, _, _, _, rfl⟩

/-- C10, counterexample: the record emitted for the empty text contains
the key `rawTextSample`, which is not one of the ten data-model fields
(the record also carries a duplicate key `material`), so the output is
not a mapping of exactly the data-model fields. -/
theorem record_extra_keys_counterexample :
    (lookupKey "rawTextSample".toList (extract_cable_parameters [])).isSome
      = true ∧
    "rawTextSample".toList ∉ cableRecordFields := by
  exact ⟨rfl, by decide⟩

/-- C10, amended: the extraction output is a flat mapping whose keys are
exactly the ten data-model fields plus `material` (a duplicate of
`conductorMaterial` kept for the frontend) and `rawTextSample` (a debug
header snippet), in insertion order. -/
theorem record_keys_amended (text : Chars) :
    (extract_cable_parameters text).map Prod.fst = actualRecordFields ∧
    (cableRecordFields.all fun k =>
      (lookupKey k (extract_cable_parameters text)).isSome) = true ∧
    lookupKey "material".toList (extract_cable_parameters text) =
      lookupKey "conductorMaterial".toList (extract_cable_parameters text) := by
  exact ⟨rfl, rfl, rfl⟩

/-- C2: if the extracted rated-voltage list is non-empty, voltageKv is the
first value (in list order) matching the highest-priority standard system
voltage within 1e-6 (standards checked in priority order
400, 220, 132, 66, 33, 11); if no value matches any standard, voltageKv
is the maximum of the list; if the list is empty, voltageKv falls back to
the header voltage detector's result (possibly null). -/
theorem main_voltage_resolution (text : Chars) :
    (extract_rated_voltages text ≠ [] →
      (∀ w, specStdPick (extract_rated_voltages text) = some w →
        w ∈ extract_rated_voltages text ∧
        lookupKey "voltageKv".toList (extract_cable_parameters text) =
          some (PyVal.vnum w)) ∧
      (specStdPick (extract_rated_voltages text) = none →
        lookupKey "voltageKv".toList (extract_cable_parameters text) =
          some (PyVal.vnum (pyMax (extract_rated_voltages text))) ∧
        pyMax (extract_rated_voltages text) ∈ extract_rated_voltages text ∧
        ∀ x ∈ extract_rated_voltages text,
          x ≤ pyMax (extract_rated_voltages text))) ∧
    (extract_rated_voltages text = [] →
      lookupKey "voltageKv".toList (extract_cable_parameters text) =
        some (optNum (extract_header_voltage_and_material
          (get_first_nonempty_lines text 8)).1)) := by
  constructor
  · intro hne
    constructor
    · intro w hw
      refine ⟨specStdPick_mem hw, ?_⟩
      rw [lookup_voltageKv, choose_main_voltage_std hne hw]
      rfl
    · intro hnone
      refine ⟨?_, pyMax_mem hne, fun x hx => pyMax_ge hx⟩
      rw [lookup_voltageKv, choose_main_voltage_max hne hnone]
      rfl
  · intro hemp
    rw [lookup_voltageKv, hemp, choose_main_voltage_empty]

/-- C2 witness: "RATED VOLTAGE : 220/400/420 kV" yields the list
[220, 400, 420] and main voltage 400. -/
theorem main_voltage_resolution_witness :
    extract_rated_voltages exRatedText = [220, 400, 420] ∧
    400 ∈ extract_rated_voltages exRatedText ∧
    lookupKey "voltageKv".toList (extract_cable_parameters exRatedText) =
      some (PyVal.vnum 400) := by
  have h := ((main_voltage_resolution exRatedText).1 (by decide)).1 400 (by decide)
  exact ⟨by decide, h.1, h.2⟩

/-- C3: conductorMaterial resolves by fixed precedence — header-scoped
conductor detector, else global fallback detector, else header generic
material, else null — and the global detector returns Copper/Aluminium on
the strong phrases, otherwise applies the weak cue-set fallback, returning
null when both or neither cue set appears. -/
theorem conductor_material_precedence (text : Chars) :
    (∀ m, (extract_conductor_and_sheath_material_from_header
        (get_first_nonempty_lines text 8)).1 = some m →
      lookupKey "conductorMaterial".toList (extract_cable_parameters text) =
        some (PyVal.vstr m)) ∧
    ((extract_conductor_and_sheath_material_from_header
        (get_first_nonempty_lines text 8)).1 = none →
      (∀ m, detect_conductor_material_global text = some m →
        lookupKey "conductorMaterial".toList (extract_cable_parameters text) =
          some (PyVal.vstr m)) ∧
      (detect_conductor_material_global text = none →
        lookupKey "conductorMaterial".toList (extract_cable_parameters text) =
          some (optStr (extract_header_voltage_and_material
            (get_first_nonempty_lines text 8)).2))) ∧
    (strongCopperCue text = true →
      detect_conductor_material_global text = some "Copper".toList) ∧
    (strongCopperCue text = false → strongAlCue text = true →
      detect_conductor_material_global text = some "Aluminium".toList) ∧
    (strongCopperCue text = false → strongAlCue text = false →
      (copperCue text = true ∧ alCue text = false →
        detect_conductor_material_global text = some "Copper".toList) ∧
      (alCue text = true ∧ copperCue text = false →
        detect_conductor_material_global text = some "Aluminium".toList) ∧
      (copperCue text = alCue text →
        detect_conductor_material_global text = none)) := by
  refine ⟨?_, ?_, ?_, ?_, ?_⟩
  · intro m hm
    rw [lookup_conductorMaterial, hm]
    rfl
  · intro hn
    refine ⟨?_, ?_⟩
    · intro m hg
      rw [lookup_conductorMaterial, hn, hg]
      rfl
    · intro hg
      rw [lookup_conductorMaterial, hn, hg]
      rfl
  · intro h
    simp [global_shape, h]
  · intro h1 h2
    simp [global_shape, h1, h2]
  · intro h1 h2
    refine ⟨?_, ?_, ?_⟩
    · rintro ⟨hc, ha⟩
      simp [global_shape, h1, h2, hc, ha]
    · rintro ⟨ha, hc⟩
      simp [global_shape, h1, h2, hc, ha]
    · intro he
      cases hc : copperCue text
      · rw [hc] at he
        simp [global_shape, h1, h2, hc, ← he]
      · rw [hc] at he
        simp [global_shape, h1, h2, hc, ← he]

/-- C3 witness: "copper conductor" is caught by the header-scoped
detector and resolves conductorMaterial to Copper. -/
theorem conductor_material_precedence_witness :
    (extract_conductor_and_sheath_material_from_header
        (get_first_nonempty_lines exCopperText 8)).1 = some "Copper".toList ∧
    lookupKey "conductorMaterial".toList (extract_cable_parameters exCopperText) =
      some (PyVal.vstr "Copper".toList) := by
  have h := (conductor_material_precedence exCopperText).1 "Copper".toList
    (by decide)
  exact ⟨by decide, h⟩

/-- C4: kValue and beta are non-null exactly when the resolved conductor
material is non-null and recognized by the material-constant lookup; the
values are (226, 234.5) for Copper and (148, 228) for Aluminium (234.5 is
469/2); the lookup yields absent for every unrecognized tag and for null. -/
theorem k_beta_lookup_invariant (text : Chars) :
    (resolvedConductor text = none →
      lookupKey "kValue".toList (extract_cable_parameters text) =
        some PyVal.vnone ∧
      lookupKey "beta".toList (extract_cable_parameters text) =
        some PyVal.vnone ∧
      lookupKey "conductorMaterial".toList (extract_cable_parameters text) =
        some PyVal.vnone) ∧
    (∀ m, resolvedConductor text = some m →
      (m = "Copper".toList ∨ m = "Aluminium".toList) ∧
      (m = "Copper".toList →
        lookupKey "kValue".toList (extract_cable_parameters text) =
          some (PyVal.vnum 226) ∧
        lookupKey "beta".toList (extract_cable_parameters text) =
          some (PyVal.vnum (469 / 2))) ∧
      (m = "Aluminium".toList →
        lookupKey "kValue".toList (extract_cable_parameters text) =
          some (PyVal.vnum 148) ∧
        lookupKey "beta".toList (extract_cable_parameters text) =
          some (PyVal.vnum 228))) ∧
    ((∃ q, lookupKey "kValue".toList (extract_cable_parameters text) =
        some (PyVal.vnum q)) ↔
      (∃ m, lookupKey "conductorMaterial".toList (extract_cable_parameters text) =
        some (PyVal.vstr m) ∧ infer_k_and_beta (some m) ≠ (none, none))) ∧
    (∀ s, lowerCs s ≠ "copper".toList → lowerCs s ≠ "aluminium".toList →
      lowerCs s ≠ "aluminum".toList →
      infer_k_and_beta (some s) = (none, none)) ∧
    infer_k_and_beta none = (none, none) := by
  refine ⟨?_, ?_, ?_, ?_, rfl⟩
  · intro hE
    refine ⟨?_, ?_, ?_⟩
    · rw [lookup_kValue_res, hE]; rfl
    · rw [lookup_beta_res, hE]; rfl
    · rw [lookup_cm_res, hE]; rfl
  · intro m hm
    refine ⟨?_, ?_, ?_⟩
    · rcases resolved_cm_range text with h | h | h
      · rw [hm] at h; exact absurd h (Option.some_ne_none m)
      · rw [hm] at h; exact Or.inl (Option.some.inj h)
      · rw [hm] at h; exact Or.inr (Option.some.inj h)
    · intro hc
      subst hc
      exact ⟨by rw [lookup_kValue_res, hm]; rfl, by rw [lookup_beta_res, hm]; rfl⟩
    · intro hc
      subst hc
      exact ⟨by rw [lookup_kValue_res, hm]; rfl, by rw [lookup_beta_res, hm]; rfl⟩
  · constructor
    · rintro ⟨q, hq⟩
      rw [lookup_kValue_res] at hq
      have h1 : (infer_k_and_beta (resolvedConductor text)).1 = some q :=
        optNum_eq_vnum.mp (Option.some.inj hq)
      rcases resolved_cm_range text with h | h | h
      · rw [h] at h1
        simp [infer_k_and_beta] at h1
      · exact ⟨"Copper".toList, by rw [lookup_cm_res, h]; rfl, by decide⟩
      · exact ⟨"Aluminium".toList, by rw [lookup_cm_res, h]; rfl, by decide⟩
    · rintro ⟨m, hm, hne⟩
      rw [lookup_cm_res] at hm
      have hE : resolvedConductor text = some m :=
        optStr_eq_vstr.mp (Option.some.inj hm)
      rcases infer_none_or_both_some (some m) with h | ⟨k, b, h⟩
      · exact absurd h hne
      · exact ⟨k, by rw [lookup_kValue_res, hE, h]; rfl⟩
  · exact fun s h1 h2 h3 => infer_unrecognized h1 h2 h3

/-- C4 witness: "copper conductor" resolves to Copper with K = 226 and
beta = 234.5. -/
theorem k_beta_lookup_invariant_witness :
    resolvedConductor exCopperText = some "Copper".toList ∧
    lookupKey "kValue".toList (extract_cable_parameters exCopperText) =
      some (PyVal.vnum 226) ∧
    lookupKey "beta".toList (extract_cable_parameters exCopperText) =
      some (PyVal.vnum (469 / 2)) := by
  have h := (((k_beta_lookup_invariant exCopperText).2.1 "Copper".toList
    (by decide)).2.1) rfl
  exact ⟨by decide, h.1, h.2⟩

/-- C5: sccKa comes from a two-pass line search — Pass 1 over lines with a
short-circuit keyword and both a k and an a, Pass 2 (only when Pass 1 found
no candidate) over all lines with a k and an a; candidates are the numeric
tokens strictly between 0 and 1000 of qualifying lines, and the result is
the maximum candidate of the pass that ran, null when neither pass yields
one. -/
theorem scc_two_pass_maximum (text : Chars) :
    sccPass1 (splitlines text) =
      ((splitlines text).filter sccQual1).flatMap sccLineCandidates ∧
    sccPass2 (splitlines text) =
      ((splitlines text).filter sccQual2).flatMap sccLineCandidates ∧
    (sccPass1 (splitlines text) ≠ [] →
      lookupKey "sccKa".toList (extract_cable_parameters text) =
        some (PyVal.vnum (pyMax (sccPass1 (splitlines text)))) ∧
      pyMax (sccPass1 (splitlines text)) ∈ sccPass1 (splitlines text) ∧
      ∀ x ∈ sccPass1 (splitlines text),
        x ≤ pyMax (sccPass1 (splitlines text))) ∧
    (sccPass1 (splitlines text) = [] →
      (sccPass2 (splitlines text) = [] →
        lookupKey "sccKa".toList (extract_cable_parameters text) =
          some PyVal.vnone) ∧
      (sccPass2 (splitlines text) ≠ [] →
        lookupKey "sccKa".toList (extract_cable_parameters text) =
          some (PyVal.vnum (pyMax (sccPass2 (splitlines text)))) ∧
        pyMax (sccPass2 (splitlines text)) ∈ sccPass2 (splitlines text) ∧
        ∀ x ∈ sccPass2 (splitlines text),
          x ≤ pyMax (sccPass2 (splitlines text)))) := by
  refine ⟨sccPass1_eq_filter _, sccPass2_eq_filter _, ?_, ?_⟩
  · intro h1
    refine ⟨?_, pyMax_mem h1, fun x hx => pyMax_ge hx⟩
    rw [lookup_sccKa, scc_result_pass1 h1]
    rfl
  · intro h1
    constructor
    · intro h2
      rw [lookup_sccKa, scc_result_pass2 h1, h2]
      rfl
    · intro h2
      rcases hl : sccPass2 (splitlines text) with - | ⟨x, xs⟩
      · exact absurd hl h2
      · refine ⟨?_, pyMax_mem (List.cons_ne_nil x xs), fun y hy => pyMax_ge hy⟩
        rw [lookup_sccKa, scc_result_pass2 h1, hl]
        rfl

/-- C5 witness: "Fault current Isc = 40 kA for 3 sec" qualifies in Pass 1
and its maximum in-range numeric token, 40, becomes sccKa. -/
theorem scc_two_pass_maximum_witness :
    sccPass1 (splitlines exFaultText) ≠ [] ∧
    lookupKey "sccKa".toList (extract_cable_parameters exFaultText) =
      some (PyVal.vnum (pyMax (sccPass1 (splitlines exFaultText)))) ∧
    pyMax (sccPass1 (splitlines exFaultText)) = 40 := by
  have h := ((scc_two_pass_maximum exFaultText).2.2.1 (by decide))
  exact ⟨by decide, h.1, by decide⟩

/-- C6: ratedVoltages collects every numeric token of the group captured
by the first RATED VOLTAGE pattern match over the (case-folded) full text,
in left-to-right order, and is the empty list when the label is absent. -/
theorem rated_voltage_list_extraction (text : Chars) :
    (∀ grp, ratedSearch (lowerCs text) = some grp →
      extract_rated_voltages text = numTokens false grp) ∧
    (ratedSearch (lowerCs text) = none →
      extract_rated_voltages text = []) ∧
    (hasSub "rated".toList (lowerCs text) = false →
      extract_rated_voltages text = []) ∧
    lookupKey "ratedVoltages".toList (extract_cable_parameters text) =
      some (PyVal.vlist (extract_rated_voltages text)) := by
  refine ⟨?_, ?_, ?_, lookup_ratedVoltages text⟩
  · intro grp hg
    rw [extract_rated_voltages, hg]
  · intro hn
    rw [extract_rated_voltages, hn]
  · intro hns
    cases hg : ratedSearch (lowerCs text) with
    | none => rw [extract_rated_voltages, hg]
    | some g =>
      exact absurd (ratedSearch_has_rated hg) (by rw [hns]; decide)

/-- C6 witness: a text without the label yields the empty list. -/
theorem rated_voltage_list_extraction_witness :
    hasSub "rated".toList (lowerCs exNoLabelText) = false ∧
    extract_rated_voltages exNoLabelText = [] ∧
    lookupKey "ratedVoltages".toList (extract_cable_parameters exNoLabelText) =
      some (PyVal.vlist []) := by
  have h := (rated_voltage_list_extraction exNoLabelText).2.2.1 (by decide)
  refine ⟨by decide, h, ?_⟩
  have h2 := (rated_voltage_list_extraction exNoLabelText).2.2.2
  rw [h] at h2
  exact h2

/-- C7: timeSec is a two-pass search — Pass 1 returns the first duration
match inside a line containing a short-circuit keyword, Pass 2 (only when
Pass 1 found nothing) the first duration match anywhere in the text, null
when neither matches. -/
theorem time_two_pass_first_match (text : Chars) :
    (∀ v, timePass1 (splitlines text) = some v →
      lookupKey "timeSec".toList (extract_cable_parameters text) =
        some (PyVal.vnum v) ∧
      ∃ line, line ∈ splitlines text ∧ timeQual line = true ∧
        timeSearch (lowerCs line) = some v) ∧
    (timePass1 (splitlines text) = none →
      lookupKey "timeSec".toList (extract_cable_parameters text) =
        some (optNum (timeSearch text))) := by
  constructor
  · intro v hv
    refine ⟨?_, timePass1_some hv⟩
    rw [lookup_timeSec]
    show some (optNum (match timePass1 (splitlines text) with
      | some w => some w
      | none => timeSearch text)) = _
    rw [hv]
    rfl
  · intro hn
    rw [lookup_timeSec]
    show some (optNum (match timePass1 (splitlines text) with
      | some w => some w
      | none => timeSearch text)) = _
    rw [hn]

/-- C7 witness: "Fault current Isc = 40 kA for 3 sec" gives timeSec 3.0
via the keyword-filtered Pass 1. -/
theorem time_two_pass_first_match_witness :
    timePass1 (splitlines exFaultText) = some 3 ∧
    lookupKey "timeSec".toList (extract_cable_parameters exFaultText) =
      some (PyVal.vnum 3) ∧
    ∃ line, line ∈ splitlines exFaultText ∧ timeQual line = true ∧
      timeSearch (lowerCs line) = some 3 := by
  have h := (time_two_pass_first_match exFaultText).1 3 (by decide)
  exact ⟨by decide, h.1, h.2⟩

theorem ins_snd_of_none {lines : List Chars}
    (h : outerSearchAux none (headerJoin 3 lines) = none) :
    (extract_header_insulation_and_outer lines).2 = none := by
  rw [ins_snd_shape, h]

theorem ins_snd_of_some {lines : List Chars} {w : Chars}
    (h : outerSearchAux none (headerJoin 3 lines) = some w) :
    (extract_header_insulation_and_outer lines).2 =
      (if w.map Char.toUpper = "PE".toList ∨ w.map Char.toUpper = "PVC".toList ∨
          w.map Char.toUpper = "XLPE".toList ∨ w.map Char.toUpper = "EPR".toList ∨
          w.map Char.toUpper = "OIL".toList then some (w.map Char.toUpper)
       else none) := by
  rw [ins_snd_shape, h]

/-- C8: the insulation detector works on the case-folded join of the first
3 header lines and picks the first insulation in priority order
XLPE, EPR, PVC, PE (cued by "pe insulation", "pe insulated" or " pe "),
Oil (cued by "oil-filled" or "oil filled"), else null; independently,
outerSheathMaterial is the (upper-cased) word captured by
"word outer sheath" exactly when it belongs to the whitelist
PE/PVC/XLPE/EPR/OIL, and null otherwise. -/
theorem insulation_outer_header (text : Chars) :
    (hasSub "xlpe".toList (headerN text 3) = true →
      lookupKey "insulationMaterial".toList (extract_cable_parameters text) =
        some (PyVal.vstr "XLPE".toList)) ∧
    (hasSub "xlpe".toList (headerN text 3) = false →
      hasSub "epr".toList (headerN text 3) = true →
      lookupKey "insulationMaterial".toList (extract_cable_parameters text) =
        some (PyVal.vstr "EPR".toList)) ∧
    (hasSub "xlpe".toList (headerN text 3) = false →
      hasSub "epr".toList (headerN text 3) = false →
      hasSub "pvc".toList (headerN text 3) = true →
      lookupKey "insulationMaterial".toList (extract_cable_parameters text) =
        some (PyVal.vstr "PVC".toList)) ∧
    (hasSub "xlpe".toList (headerN text 3) = false →
      hasSub "epr".toList (headerN text 3) = false →
      hasSub "pvc".toList (headerN text 3) = false →
      (hasSub "pe insulation".toList (headerN text 3) = true ∨
       hasSub "pe insulated".toList (headerN text 3) = true ∨
       hasSub " pe ".toList (headerN text 3) = true) →
      lookupKey "insulationMaterial".toList (extract_cable_parameters text) =
        some (PyVal.vstr "PE".toList)) ∧
    (hasSub "xlpe".toList (headerN text 3) = false →
      hasSub "epr".toList (headerN text 3) = false →
      hasSub "pvc".toList (headerN text 3) = false →
      hasSub "pe insulation".toList (headerN text 3) = false →
      hasSub "pe insulated".toList (headerN text 3) = false →
      hasSub " pe ".toList (headerN text 3) = false →
      (hasSub "oil-filled".toList (headerN text 3) = true ∨
       hasSub "oil filled".toList (headerN text 3) = true) →
      lookupKey "insulationMaterial".toList (extract_cable_parameters text) =
        some (PyVal.vstr "oil".toList)) ∧
    (hasSub "xlpe".toList (headerN text 3) = false →
      hasSub "epr".toList (headerN text 3) = false →
      hasSub "pvc".toList (headerN text 3) = false →
      hasSub "pe insulation".toList (headerN text 3) = false →
      hasSub "pe insulated".toList (headerN text 3) = false →
      hasSub " pe ".toList (headerN text 3) = false →
      hasSub "oil-filled".toList (headerN text 3) = false →
      hasSub "oil filled".toList (headerN text 3) = false →
      lookupKey "insulationMaterial".toList (extract_cable_parameters text) =
        some PyVal.vnone) ∧
    (outerSearchAux none (headerN text 3) = none →
      lookupKey "outerSheathMaterial".toList (extract_cable_parameters text) =
        some PyVal.vnone) ∧
    (∀ w, outerSearchAux none (headerN text 3) = some w →
      (w.map Char.toUpper ∈ outerWhitelist →
        lookupKey "outerSheathMaterial".toList (extract_cable_parameters text) =
          some (PyVal.vstr (w.map Char.toUpper))) ∧
      (w.map Char.toUpper ∉ outerWhitelist →
        lookupKey "outerSheathMaterial".toList (extract_cable_parameters text) =
          some PyVal.vnone)) := by
  have hH : headerJoin 3 (get_first_nonempty_lines text 8) = headerN text 3 :=
    headerJoin_gfnl text (by omega) (by omega)
  refine ⟨?_, ?_, ?_, ?_, ?_, ?_, ?_, ?_⟩
  · intro h1
    rw [lookup_insulationMaterial, ins_fst_shape, hH, if_pos h1]
    rfl
  · intro h1 h2
    rw [lookup_insulationMaterial, ins_fst_shape, hH,
      if_neg (ne_true_of_eq_false h1), if_pos h2]
    rfl
  · intro h1 h2 h3
    rw [lookup_insulationMaterial, ins_fst_shape, hH,
      if_neg (ne_true_of_eq_false h1), if_neg (ne_true_of_eq_false h2),
      if_pos h3]
    rfl
  · intro h1 h2 h3 h4
    have hc : (hasSub "pe insulation".toList (headerN text 3) ||
        hasSub "pe insulated".toList (headerN text 3) ||
        hasSub " pe ".toList (headerN text 3)) = true := by
      simp only [Bool.or_eq_true]
      tauto
    rw [lookup_insulationMaterial, ins_fst_shape, hH,
      if_neg (ne_true_of_eq_false h1), if_neg (ne_true_of_eq_false h2),
      if_neg (ne_true_of_eq_false h3), if_pos hc]
    rfl
  · intro h1 h2 h3 h4 h5 h6 h7
    have hc : (hasSub "oil-filled".toList (headerN text 3) ||
        hasSub "oil filled".toList (headerN text 3)) = true := by
      simp only [Bool.or_eq_true]
      tauto
    have hpe : ¬((hasSub "pe insulation".toList (headerN text 3) ||
        hasSub "pe insulated".toList (headerN text 3) ||
        hasSub " pe ".toList (headerN text 3)) = true) := by
      simp only [Bool.or_eq_true]
      rintro ((ha | hb) | hc2)
      · exact absurd ha (ne_true_of_eq_false h4)
      · exact absurd hb (ne_true_of_eq_false h5)
      · exact absurd hc2 (ne_true_of_eq_false h6)
    rw [lookup_insulationMaterial, ins_fst_shape, hH,
      if_neg (ne_true_of_eq_false h1), if_neg (ne_true_of_eq_false h2),
      if_neg (ne_true_of_eq_false h3), if_neg hpe, if_pos hc]
    rfl
  · intro h1 h2 h3 h4 h5 h6 h7 h8
    have hpe : ¬((hasSub "pe insulation".toList (headerN text 3) ||
        hasSub "pe insulated".toList (headerN text 3) ||
        hasSub " pe ".toList (headerN text 3)) = true) := by
      simp only [Bool.or_eq_true]
      rintro ((ha | hb) | hc2)
      · exact absurd ha (ne_true_of_eq_false h4)
      · exact absurd hb (ne_true_of_eq_false h5)
      · exact absurd hc2 (ne_true_of_eq_false h6)
    have hoil : ¬((hasSub "oil-filled".toList (headerN text 3) ||
        hasSub "oil filled".toList (headerN text 3)) = true) := by
      simp only [Bool.or_eq_true]
      rintro (ha | hb)
      · exact absurd ha (ne_true_of_eq_false h7)
      · exact absurd hb (ne_true_of_eq_false h8)
    rw [lookup_insulationMaterial, ins_fst_shape, hH,
      if_neg (ne_true_of_eq_false h1), if_neg (ne_true_of_eq_false h2),
      if_neg (ne_true_of_eq_false h3), if_neg hpe, if_neg hoil]
    rfl
  · intro hw
    rw [lookup_outerSheathMaterial, ins_snd_of_none (by rw [hH]; exact hw)]
    rfl
  · intro w hw
    have hw' : outerSearchAux none
        (headerJoin 3 (get_first_nonempty_lines text 8)) = some w := by
      rw [hH]; exact hw
    constructor
    · intro hmem
      have hd : w.map Char.toUpper = "PE".toList ∨
          w.map Char.toUpper = "PVC".toList ∨
          w.map Char.toUpper = "XLPE".toList ∨
          w.map Char.toUpper = "EPR".toList ∨
          w.map Char.toUpper = "OIL".toList := by
        simpa [outerWhitelist] using hmem
      rw [lookup_outerSheathMaterial, ins_snd_of_some hw', if_pos hd]
      rfl
    · intro hmem
      have hd : ¬(w.map Char.toUpper = "PE".toList ∨
          w.map Char.toUpper = "PVC".toList ∨
          w.map Char.toUpper = "XLPE".toList ∨
          w.map Char.toUpper = "EPR".toList ∨
          w.map Char.toUpper = "OIL".toList) := by
        simpa [outerWhitelist] using hmem
      rw [lookup_outerSheathMaterial, ins_snd_of_some hw', if_neg hd]
      rfl

/-- C8 witness: the descriptive header line yields insulation XLPE and
outer sheath PE (captured word "pe", upper-cased, whitelisted). -/
theorem insulation_outer_header_witness :
    hasSub "xlpe".toList (headerN exCableText 3) = true ∧
    lookupKey "insulationMaterial".toList (extract_cable_parameters exCableText) =
      some (PyVal.vstr "XLPE".toList) ∧
    outerSearchAux none (headerN exCableText 3) = some "pe".toList ∧
    lookupKey "outerSheathMaterial".toList (extract_cable_parameters exCableText) =
      some (PyVal.vstr "PE".toList) := by
  have h1 := (insulation_outer_header exCableText).1 (by decide)
  have h2 := (((insulation_outer_header exCableText).2.2.2.2.2.2.2) "pe".toList
    (by decide)).1 (by decide)
  exact ⟨by decide, h1, by decide, h2⟩

theorem ite_opt_range5 {α : Type} (c1 c2 c3 c4 c5 : Bool) (a b c d e : α) :
    (if c1 then some a else if c2 then some b else if c3 then some c
     else if c4 then some d else if c5 then some e else none) = none ∨
    (if c1 then some a else if c2 then some b else if c3 then some c
     else if c4 then some d else if c5 then some e else none) = some a ∨
    (if c1 then some a else if c2 then some b else if c3 then some c
     else if c4 then some d else if c5 then some e else none) = some b ∨
    (if c1 then some a else if c2 then some b else if c3 then some c
     else if c4 then some d else if c5 then some e else none) = some c ∨
    (if c1 then some a else if c2 then some b else if c3 then some c
     else if c4 then some d else if c5 then some e else none) = some d ∨
    (if c1 then some a else if c2 then some b else if c3 then some c
     else if c4 then some d else if c5 then some e else none) = some e := by
  cases c1 <;> cases c2 <;> cases c3 <;> cases c4 <;> cases c5 <;> simp

theorem sheath_snd_range (text : Chars) :
    (extract_conductor_and_sheath_material_from_header
      (get_first_nonempty_lines text 8)).2 = none ∨
    (extract_conductor_and_sheath_material_from_header
      (get_first_nonempty_lines text 8)).2 = some "aluminium".toList ∨
    (extract_conductor_and_sheath_material_from_header
      (get_first_nonempty_lines text 8)).2 = some "copper".toList ∨
    (extract_conductor_and_sheath_material_from_header
      (get_first_nonempty_lines text 8)).2 = some "lead".toList ∨
    (extract_conductor_and_sheath_material_from_header
      (get_first_nonempty_lines text 8)).2 = some "steel".toList ∨
    (extract_conductor_and_sheath_material_from_header
      (get_first_nonempty_lines text 8)).2 = some "bronze".toList := by
  rw [cond_snd_shape]
  exact ite_opt_range5 _ _ _ _ _ _ _ _ _ _

/-- C9: the sheath detector works on the case-folded join of the first 4
header lines and returns the first material of the ordered candidate set
Aluminium, Copper, Lead, Steel, Bronze matching "material ... sheath"
(word-bounded material, no comma/newline between), else null; whenever
sheathMaterial is non-null the tag is one of the data model's sheath
enumeration values up to letter case. -/
theorem sheath_material_header (text : Chars) :
    (sheathCueAl text = true →
      lookupKey "sheathMaterial".toList (extract_cable_parameters text) =
        some (PyVal.vstr "aluminium".toList)) ∧
    (sheathCueAl text = false → sheathCueCu text = true →
      lookupKey "sheathMaterial".toList (extract_cable_parameters text) =
        some (PyVal.vstr "copper".toList)) ∧
    (sheathCueAl text = false → sheathCueCu text = false →
      sheathCueLead text = true →
      lookupKey "sheathMaterial".toList (extract_cable_parameters text) =
        some (PyVal.vstr "lead".toList)) ∧
    (sheathCueAl text = false → sheathCueCu text = false →
      sheathCueLead text = false → sheathCueSteel text = true →
      lookupKey "sheathMaterial".toList (extract_cable_parameters text) =
        some (PyVal.vstr "steel".toList)) ∧
    (sheathCueAl text = false → sheathCueCu text = false →
      sheathCueLead text = false → sheathCueSteel text = false →
      sheathCueBronze text = true →
      lookupKey "sheathMaterial".toList (extract_cable_parameters text) =
        some (PyVal.vstr "bronze".toList)) ∧
    (sheathCueAl text = false → sheathCueCu text = false →
      sheathCueLead text = false → sheathCueSteel text = false →
      sheathCueBronze text = false →
      lookupKey "sheathMaterial".toList (extract_cable_parameters text) =
        some PyVal.vnone) ∧
    (∀ m, lookupKey "sheathMaterial".toList (extract_cable_parameters text) =
        some (PyVal.vstr m) → lowerCs m ∈ sheathEnum.map lowerCs) := by
  have hH : headerJoin 4 (get_first_nonempty_lines text 8) = headerN text 4 :=
    headerJoin_gfnl text (by omega) (by omega)
  refine ⟨?_, ?_, ?_, ?_, ?_, ?_, ?_⟩
  · intro h1
    simp only [sheathCueAl, sheathCueCu, sheathCueLead, sheathCueSteel,
      sheathCueBronze] at h1
    rw [lookup_sheathMaterial, cond_snd_shape, hH, if_pos h1]
    rfl
  · intro h1 h2
    simp only [sheathCueAl, sheathCueCu, sheathCueLead, sheathCueSteel,
      sheathCueBronze] at h1 h2
    rw [lookup_sheathMaterial, cond_snd_shape, hH,
      if_neg (ne_true_of_eq_false h1), if_pos h2]
    rfl
  · intro h1 h2 h3
    simp only [sheathCueAl, sheathCueCu, sheathCueLead, sheathCueSteel,
      sheathCueBronze] at h1 h2 h3
    rw [lookup_sheathMaterial, cond_snd_shape, hH,
      if_neg (ne_true_of_eq_false h1), if_neg (ne_true_of_eq_false h2),
      if_pos h3]
    rfl
  · intro h1 h2 h3 h4
    simp only [sheathCueAl, sheathCueCu, sheathCueLead, sheathCueSteel,
      sheathCueBronze] at h1 h2 h3 h4
    rw [lookup_sheathMaterial, cond_snd_shape, hH,
      if_neg (ne_true_of_eq_false h1), if_neg (ne_true_of_eq_false h2),
      if_neg (ne_true_of_eq_false h3), if_pos h4]
    rfl
  · intro h1 h2 h3 h4 h5
    simp only [sheathCueAl, sheathCueCu, sheathCueLead, sheathCueSteel,
      sheathCueBronze] at h1 h2 h3 h4 h5
    rw [lookup_sheathMaterial, cond_snd_shape, hH,
      if_neg (ne_true_of_eq_false h1), if_neg (ne_true_of_eq_false h2),
      if_neg (ne_true_of_eq_false h3), if_neg (ne_true_of_eq_false h4),
      if_pos h5]
    rfl
  · intro h1 h2 h3 h4 h5
    simp only [sheathCueAl, sheathCueCu, sheathCueLead, sheathCueSteel,
      sheathCueBronze] at h1 h2 h3 h4 h5
    rw [lookup_sheathMaterial, cond_snd_shape, hH,
      if_neg (ne_true_of_eq_false h1), if_neg (ne_true_of_eq_false h2),
      if_neg (ne_true_of_eq_false h3), if_neg (ne_true_of_eq_false h4),
      if_neg (ne_true_of_eq_false h5)]
    rfl
  · intro m hm
    rw [lookup_sheathMaterial] at hm
    have hs := optStr_eq_vstr.mp (Option.some.inj hm)
    rcases sheath_snd_range text with h | h | h | h | h | h <;>
      rw [h] at hs
    · exact absurd hs (Option.noConfusion)
    all_goals
      rw [← Option.some.inj hs]
    · decide
    · decide
    · decide
    · decide
    · decide

/-- C9 witness: the descriptive header yields sheathMaterial aluminium,
which is in the data-model enumeration up to case. -/
theorem sheath_material_header_witness :
    sheathCueAl exCableText = true ∧
    lookupKey "sheathMaterial".toList (extract_cable_parameters exCableText) =
      some (PyVal.vstr "aluminium".toList) ∧
    lowerCs "aluminium".toList ∈ sheathEnum.map lowerCs := by
  have h := (sheath_material_header exCableText).1 (by decide)
  exact ⟨by decide, h, by decide⟩
